import Mathlib

/-!
Verification of the global-ptt repository (a PulseAudio push-to-talk
utility) against its natural-language specification.

The development shallowly embeds the relevant Rust code:

* `src/app.rs` — the mute-state engine (`App::update`, `App::set_muted`,
  `App::set_active`, `App::finish_hotkey_recording`);
* `src/hotkey.rs` — event-id → role resolution (`handle_hotkey_press`)
  and the Direct (non-Wayland) rebind path;
* `src/pulse.rs` — the virtual-microphone lifecycle
  (`set_virtual_mic`, `remove_virtual_mic`, `set_mute`,
  `get_input_devices`) against a functional model of the PulseAudio
  server, and the mainloop poll-loop result logic.

Machine integers do not overflow in any modelled path, so ids are `Nat`.
Fallible collaborators (the audio bridge, the accelerator parser) are
explicit function parameters; stateful code is explicit state passing.
-/

namespace GlobalPTT

/-- Errors of `pulse.rs` (`enum Error`). -/
inductive PulseError
  | MainloopCreation
  | ContextCreation
  | ContextConnection
  | MainloopTick
  deriving DecidableEq, Repr

/-- The engine's view of `PulseAudioState::set_mute`: the argument it was
called with determines the server effect; the call returns `Ok` or an
error.  A `Bridge` is the environment's choice of result for each call. -/
def Bridge : Type := Bool → Except PulseError Unit

/-- The bridge that always succeeds. -/
def okBridge : Bridge := fun _ => Except.ok ()

/-- A bridge that always fails with error `e`. -/
def failBridge (e : PulseError) : Bridge := fun _ => Except.error e

/-- Role recorded while the UI waits for a key combination
(`enum HotKeyAction` in `app.rs`). -/
inductive HotKeyAction
  | Trigger
  | ToggleActive
  deriving DecidableEq, Repr

/-- `struct HotKeyConfig<T>` from `hotkey.rs`: one value per logical role. -/
structure HotKeyConfig (T : Type) where
  trigger : T
  toggle_active : T
  deriving DecidableEq, Repr

/-- The mute-engine state of `struct App` in `app.rs`.  `loaded` is
whether `backend` is `BackendState::Loaded` (an `Error` backend makes
`set_muted`/`set_active` return without touching any state);
`hk_descriptions`, `recording_hotkey` and `change_hotkey_tx` (modelled as
presence of the sender) carry the hotkey-recording state used by
`finish_hotkey_recording`.  Window, tray and theme state are external
collaborators and not modelled. -/
structure App where
  loaded : Bool
  active : Bool
  muted : Bool
  hk_descriptions : HotKeyConfig String
  recording_hotkey : Option HotKeyAction
  change_hotkey_tx : Bool
  deriving DecidableEq, Repr

/-- The engine state right after `App::new` with a loaded backend:
`active = false`, `muted = false`, no recording in progress. -/
def initApp : App :=
  { loaded := true, active := false, muted := false,
    hk_descriptions := ⟨"", ""⟩, recording_hotkey := none,
    change_hotkey_tx := true }

/-- `App::set_muted` (`app.rs` lines 190-200): if the backend is loaded,
call `set_mute(active && muted)` on the bridge, report a failure (once,
via `eprintln`) if it errs, and commit `muted := active && muted`
unconditionally.  Returns the new state, the list of `set_mute` arguments
issued, and the number of failure reports emitted. -/
def set_muted (bridge : Bridge) (s : App) (muted : Bool) :
    App × List Bool × Nat :=
  if !s.loaded then (s, [], 0)
  else
    let arg := s.active && muted
    let reports := match bridge arg with
      | Except.ok _ => 0
      | Except.error _ => 1
    ({ s with muted := arg }, [arg], reports)

/-- `App::set_active` (`app.rs` lines 202-213): if the backend is loaded,
set `active := active`, update the tray (external, not modelled) and then
process the queued `Msg::SetMuted(active)`. -/
def set_active (bridge : Bridge) (s : App) (active : Bool) :
    App × List Bool × Nat :=
  if !s.loaded then (s, [], 0)
  else set_muted bridge { s with active := active } active

/-- `Msg::ToggleActive` in `App::update` (`app.rs` line 166): queue
`Msg::SetActive(!active)`, which is then processed. -/
def toggle_active (bridge : Bridge) (s : App) : App × List Bool × Nat :=
  set_active bridge s (!s.active)

/-- The engine-level events of the specification's state machine: the
backend's Trigger press/release and ToggleActive press (routed by
`handle_hotkey_press` in `hotkey.rs` to `Msg::SetMuted(released)` and
`Msg::ToggleActive`), plus the UI checkbox command `Msg::SetActive(b)`. -/
inductive EngineEvent
  | TriggerPressed
  | TriggerReleased
  | ToggleActivePressed
  | SetActiveCmd (b : Bool)
  deriving DecidableEq, Repr

/-- One engine transition, as dispatched by `handle_hotkey_press`
(`hotkey.rs` lines 168-183) and `App::update`: a Trigger event becomes
`Msg::SetMuted(state == Released)`, a ToggleActive press becomes
`Msg::ToggleActive`, and the UI command becomes `Msg::SetActive(b)`. -/
def stepEvent (bridge : Bridge) (s : App) : EngineEvent → App × List Bool × Nat
  | EngineEvent.TriggerPressed => set_muted bridge s false
  | EngineEvent.TriggerReleased => set_muted bridge s true
  | EngineEvent.ToggleActivePressed => toggle_active bridge s
  | EngineEvent.SetActiveCmd b => set_active bridge s b

/-- Process a finite event sequence, concatenating the `set_mute` call
traces and summing the failure-report counts. -/
def runEvents (bridge : Bridge) (s : App) : List EngineEvent → App × List Bool × Nat
  | [] => (s, [], 0)
  | e :: es =>
    let r := stepEvent bridge s e
    let rest := runEvents bridge r.1 es
    (rest.1, r.2.1 ++ rest.2.1, r.2.2 + rest.2.2)

/-- Whether the physical Trigger key is held after an event: updated by
the Trigger edges, untouched by the rest.  This is the environment's
truth; the engine itself never stores it. -/
def stepHolding (h : Bool) : EngineEvent → Bool
  | EngineEvent.TriggerPressed => true
  | EngineEvent.TriggerReleased => false
  | _ => h

/-- Whether Trigger is held after a whole event sequence (initially not
held). -/
def holdingAfter (es : List EngineEvent) : Bool :=
  es.foldl stepHolding false

/-- An event sequence is activation-safe when every event that turns the
engine active — a `ToggleActivePressed` arriving while inactive, or a
`SetActiveCmd true` — arrives while Trigger is not held.  State evolution
does not depend on the bridge's results (`stepEvent_state_bridge_free`),
so the states are tracked with `okBridge`. -/
def safeActivations : App → Bool → List EngineEvent → Bool
  | _, _, [] => true
  | s, h, e :: es =>
    (match e with
      | EngineEvent.ToggleActivePressed => s.active || !h
      | EngineEvent.SetActiveCmd b => !b || !h
      | _ => true)
    && safeActivations (stepEvent okBridge s e).1 (stepHolding h e) es

theorem set_muted_state_bridge_free (b b' : Bridge) (s : App) (m : Bool) :
    (set_muted b s m).1 = (set_muted b' s m).1 ∧
    (set_muted b s m).2.1 = (set_muted b' s m).2.1 := by
  simp only [set_muted]
  by_cases h : s.loaded <;> simp [h]

theorem stepEvent_state_bridge_free (b b' : Bridge) (s : App) (e : EngineEvent) :
    (stepEvent b s e).1 = (stepEvent b' s e).1 ∧
    (stepEvent b s e).2.1 = (stepEvent b' s e).2.1 := by
  cases e <;>
    simp only [stepEvent, toggle_active, set_active] <;>
    first
      | exact set_muted_state_bridge_free b b' s _
      | (by_cases h : s.loaded <;> simp [h, set_muted_state_bridge_free b b' _ _])

theorem runEvents_state_bridge_free (b b' : Bridge) (s : App)
    (es : List EngineEvent) :
    (runEvents b s es).1 = (runEvents b' s es).1 ∧
    (runEvents b s es).2.1 = (runEvents b' s es).2.1 := by
  induction es generalizing s with
  | nil => exact ⟨rfl, rfl⟩
  | cons e es ih =>
    have h1 := stepEvent_state_bridge_free b b' s e
    simp [runEvents, h1.1, h1.2, (ih (stepEvent b' s e).1).1,
      (ih (stepEvent b' s e).1).2]

theorem stepEvent_loaded (b : Bridge) (s : App) (e : EngineEvent) :
    (stepEvent b s e).1.loaded = s.loaded := by
  cases e <;>
    simp only [stepEvent, toggle_active, set_active, set_muted] <;>
    by_cases h : s.loaded <;> simp [h]

/-- Strengthened invariant for the amended C1: on a loaded backend, if
`muted = active && !holding` holds now and the remaining events are
activation-safe, it holds after processing them. -/
theorem muted_invariant_aux (b : Bridge) (es : List EngineEvent) :
    ∀ (s : App) (h : Bool), s.loaded = true →
    s.muted = (s.active && !h) →
    safeActivations s h es = true →
    (runEvents b s es).1.muted
      = ((runEvents b s es).1.active && !(es.foldl stepHolding h)) := by
  induction es with
  | nil => intro s h _ hinv _; simpa [runEvents] using hinv
  | cons e es ih =>
    intro s h hload hinv hsafe
    simp only [safeActivations, Bool.and_eq_true] at hsafe
    obtain ⟨hcond, hsafe'⟩ := hsafe
    simp only [runEvents, List.foldl_cons]
    have hb := stepEvent_state_bridge_free b okBridge s e
    have hload' : (stepEvent b s e).1.loaded = true := by
      rw [stepEvent_loaded]; exact hload
    refine ih _ _ hload' ?_ (by rw [hb.1]; exact hsafe')
    -- one step preserves the invariant
    cases e with
    | TriggerPressed =>
      simp [stepEvent, set_muted, hload, stepHolding]
    | TriggerReleased =>
      simp only [stepEvent, set_muted, hload, Bool.not_false, Bool.not_true,
        Bool.not_eq_true', stepHolding]
      simp
    | ToggleActivePressed =>
      simp only [stepEvent, toggle_active, set_active, set_muted, hload,
        Bool.not_true, Bool.not_eq_true', stepHolding]
      simp only [hload, Bool.not_true, Bool.false_eq_true, if_false,
        Bool.and_self]
      cases ha : s.active with
      | false =>
        simp only [ha, Bool.false_or] at hcond
        simp [hcond]
      | true => simp
    | SetActiveCmd v =>
      simp only [stepEvent, set_active, set_muted, hload, Bool.not_true,
        Bool.false_eq_true, if_false, Bool.and_self, stepHolding]
      cases v with
      | false => simp
      | true =>
        simp only [Bool.not_true, Bool.false_or] at hcond
        simp [hcond]

/-- C1 (corrected, counterexample): as stated the invariant is false:
from the initial state, `[TriggerPressed, ToggleActivePressed]` (press
Trigger while inactive, then activate while still holding it) leaves
`muted = true` although `active && !holding = false`: `App::set_active`
sets `muted := active` without consulting the Trigger key. -/
theorem muted_invariant_counterexample :
    ¬ ((runEvents okBridge initApp
          [EngineEvent.TriggerPressed, EngineEvent.ToggleActivePressed]).1.muted
        = ((runEvents okBridge initApp
          [EngineEvent.TriggerPressed, EngineEvent.ToggleActivePressed]).1.active
          && !(holdingAfter
            [EngineEvent.TriggerPressed, EngineEvent.ToggleActivePressed]))) := by
  decide

/-- C1 (amended): first conjunct — starting from the initial state
(`active = false`, `muted = false`), after any finite activation-safe
event sequence (one in which every event that turns the engine active
arrives while Trigger is not held) the engine's `muted` flag equals
`active && !currently-holding(Trigger)`.  Second conjunct — on a loaded
backend any transition that leaves the engine inactive forces
`muted = false`, regardless of whether Trigger is held. -/
theorem muted_invariant :
    (∀ (bridge : Bridge) (es : List EngineEvent),
      safeActivations initApp false es = true →
      (runEvents bridge initApp es).1.muted
        = ((runEvents bridge initApp es).1.active && !(holdingAfter es)))
    ∧ (∀ (bridge : Bridge) (s : App) (e : EngineEvent),
      s.loaded = true →
      (stepEvent bridge s e).1.active = false →
      (stepEvent bridge s e).1.muted = false) := by
  constructor
  · intro bridge es hsafe
    exact muted_invariant_aux bridge es initApp false rfl rfl hsafe
  · intro bridge s e hload hact
    cases e with
    | TriggerPressed => simp [stepEvent, set_muted, hload]
    | TriggerReleased =>
      simp only [stepEvent, set_muted, hload, Bool.not_true,
        Bool.false_eq_true, if_false] at hact ⊢
      simpa using hact
    | ToggleActivePressed =>
      simp only [stepEvent, toggle_active, set_active, set_muted, hload,
        Bool.not_true, Bool.false_eq_true, if_false] at hact ⊢
      simpa using hact
    | SetActiveCmd b =>
      simp only [stepEvent, set_active, set_muted, hload, Bool.not_true,
        Bool.false_eq_true, if_false] at hact ⊢
      simpa using hact

/-- Witness for C1's amended theorem: the PTT-cycle sequence is
activation-safe and satisfies the invariant, and a deactivating toggle
while Trigger is held still leaves `muted = false`. -/
theorem muted_invariant_witness :
    safeActivations initApp false
        [EngineEvent.ToggleActivePressed, EngineEvent.TriggerPressed,
          EngineEvent.TriggerReleased, EngineEvent.ToggleActivePressed] = true
    ∧ (runEvents okBridge initApp
        [EngineEvent.ToggleActivePressed, EngineEvent.TriggerPressed,
          EngineEvent.TriggerReleased, EngineEvent.ToggleActivePressed]).1.muted
      = ((runEvents okBridge initApp
        [EngineEvent.ToggleActivePressed, EngineEvent.TriggerPressed,
          EngineEvent.TriggerReleased, EngineEvent.ToggleActivePressed]).1.active
        && !(holdingAfter
        [EngineEvent.ToggleActivePressed, EngineEvent.TriggerPressed,
          EngineEvent.TriggerReleased, EngineEvent.ToggleActivePressed]))
    ∧ (stepEvent okBridge
        { initApp with active := true, muted := false }
        EngineEvent.ToggleActivePressed).1.muted = false :=
  ⟨by decide, muted_invariant.1 okBridge _ (by decide),
    muted_invariant.2 okBridge { initApp with active := true, muted := false }
      EngineEvent.ToggleActivePressed rfl (by decide)⟩

/-- C2: processing `[ToggleActivePressed, TriggerPressed, TriggerReleased,
ToggleActivePressed]` from the inactive initial state issues exactly the
`set_mute` call sequence `[true, false, true, false]` (whatever each call
returns) and ends inactive and unmuted. -/
theorem ptt_cycle (bridge : Bridge) :
    (runEvents bridge initApp
        [EngineEvent.ToggleActivePressed, EngineEvent.TriggerPressed,
          EngineEvent.TriggerReleased, EngineEvent.ToggleActivePressed]).2.1
      = [true, false, true, false]
    ∧ (runEvents bridge initApp
        [EngineEvent.ToggleActivePressed, EngineEvent.TriggerPressed,
          EngineEvent.TriggerReleased, EngineEvent.ToggleActivePressed]).1.active
      = false
    ∧ (runEvents bridge initApp
        [EngineEvent.ToggleActivePressed, EngineEvent.TriggerPressed,
          EngineEvent.TriggerReleased, EngineEvent.ToggleActivePressed]).1.muted
      = false := by
  have h := runEvents_state_bridge_free bridge okBridge initApp
    [EngineEvent.ToggleActivePressed, EngineEvent.TriggerPressed,
      EngineEvent.TriggerReleased, EngineEvent.ToggleActivePressed]
  rw [h.1, h.2]
  refine ⟨?_, ?_, ?_⟩ <;> decide

/-- C4 (corrected, counterexample): `TriggerPressed` in the Inactive
state is not side-effect free: it issues a `set_mute(false)` call (the
call trace is nonempty), because `App::set_muted` always calls
`set_mute(active && muted)` on a loaded backend. -/
theorem inactive_side_effect_counterexample :
    ¬ ((stepEvent okBridge initApp EngineEvent.TriggerPressed).2.1 = []) := by
  decide

/-- C4 (amended): in the Inactive state (`active = false`,
`muted = false`), `TriggerPressed` and `TriggerReleased` leave the state
unchanged (still Inactive), but each issues exactly one `set_mute(false)`
call to the AudioBridge rather than none. -/
theorem inactive_absorbing (bridge : Bridge) :
    (stepEvent bridge initApp EngineEvent.TriggerPressed).1 = initApp
    ∧ (stepEvent bridge initApp EngineEvent.TriggerPressed).2.1 = [false]
    ∧ (stepEvent bridge initApp EngineEvent.TriggerReleased).1 = initApp
    ∧ (stepEvent bridge initApp EngineEvent.TriggerReleased).2.1 = [false] := by
  have h1 := stepEvent_state_bridge_free bridge okBridge initApp
    EngineEvent.TriggerPressed
  have h2 := stepEvent_state_bridge_free bridge okBridge initApp
    EngineEvent.TriggerReleased
  rw [h1.1, h1.2, h2.1, h2.2]
  refine ⟨?_, ?_, ?_, ?_⟩ <;> decide

/-- C5: when `set_mute` fails, `App::set_muted` still commits the state
transition exactly as in the success case (optimistic commit), and on a
loaded backend the failure is reported exactly once while a success is
reported zero times.  The function is total, so no crash is possible. -/
theorem set_muted_optimistic (e : PulseError) (s : App) (m : Bool) :
    (set_muted (failBridge e) s m).1 = (set_muted okBridge s m).1
    ∧ (s.loaded = true →
        (set_muted (failBridge e) s m).2.2 = 1
        ∧ (set_muted okBridge s m).2.2 = 0) := by
  constructor
  · exact (set_muted_state_bridge_free (failBridge e) okBridge s m).1
  · intro hload
    simp [set_muted, hload, okBridge, failBridge]

/-- Witness for C5 at a concrete loaded state. -/
theorem set_muted_optimistic_witness :
    (set_muted (failBridge PulseError.MainloopTick) initApp true).1
      = (set_muted okBridge initApp true).1
    ∧ (set_muted (failBridge PulseError.MainloopTick) initApp true).2.2 = 1
    ∧ (set_muted okBridge initApp true).2.2 = 0 :=
  ⟨(set_muted_optimistic PulseError.MainloopTick initApp true).1,
    ((set_muted_optimistic PulseError.MainloopTick initApp true).2 rfl).1,
    ((set_muted_optimistic PulseError.MainloopTick initApp true).2 rfl).2⟩

/-! ## PulseAudio model (`pulse.rs`) -/

/-- `VIRTUALMIC_DESCRIPTION` in `pulse.rs`. -/
def VIRTUALMIC_DESCRIPTION : String := "Global Push-to-Talk Virtual Microphone"

/-- `VIRTUALMIC_NAME` in `pulse.rs`. -/
def VIRTUALMIC_NAME : String := "GlobalPushToTalkVirtualMicrophone"

/-- Rust's `str::contains(pat)`: `pat` occurs as a contiguous substring. -/
def strContains (s pat : String) : Bool := decide (pat.data <:+: s.data)

/-- A module loaded on the PulseAudio server, as visible through
`get_module_info_list`: its index, its name and its argument string. -/
structure PAModule where
  index : Nat
  name : String
  argument : String
  deriving DecidableEq, Repr

/-- Functional model of the PulseAudio server state the code touches: the
loaded modules, the next module index the server will assign, and the
mute flag of the virtual source (the target of
`set_source_mute_by_name(VIRTUALMIC_NAME, ·)`). -/
structure Server where
  modules : List PAModule
  nextIndex : Nat
  virtualMicMuted : Bool
  deriving DecidableEq, Repr

/-- A fresh server with no modules loaded. -/
def initServer : Server := { modules := [], nextIndex := 0, virtualMicMuted := false }

/-- Requests the client issues to the server. -/
inductive PACall
  | unload_module (index : Nat)
  | load_module (name argument : String)
  | set_source_mute (mute : Bool)
  deriving DecidableEq, Repr

/-- The client-side state `PulseAudioState` keeps beyond the connection:
the recorded active source name `src_name`. -/
structure PulseAudioState where
  src_name : Option String
  deriving DecidableEq, Repr

/-- `PulseAudioState` right after `init`: no source recorded. -/
def initPulse : PulseAudioState := { src_name := none }

/-- The fixed part of the `load_module` options string after the master
source name (from `set_virtual_mic`, `pulse.rs` lines 116-118). -/
def optionsTail : String :=
  " source_name=" ++ VIRTUALMIC_NAME
    ++ " source_properties=\"device.description=\x27" ++ VIRTUALMIC_DESCRIPTION ++ "\x27\""

/-- The options string `set_virtual_mic` passes to `load_module`:
`master=<source_name> source_name=<VIRTUALMIC_NAME>
source_properties="device.description=<VIRTUALMIC_DESCRIPTION>"`. -/
def mkOptions (source_name : String) : String :=
  "master=" ++ source_name ++ optionsTail

/-- The filter in `remove_virtual_mic` (`pulse.rs` lines 77-90): a module
is the virtual microphone's when its name is `module-remap-source` and
its argument string contains `source_name=<VIRTUALMIC_NAME>`. -/
def isVirtualMicModule (m : PAModule) : Bool :=
  m.name == "module-remap-source"
    && strContains m.argument ("source_name=" ++ VIRTUALMIC_NAME)

/-- `PulseAudioState::remove_virtual_mic` (`pulse.rs` lines 70-109):
enumerate the loaded modules and unload every one matching
`isVirtualMicModule`, waiting for the enumeration to finish.  Returns the
server with those modules gone and the issued `unload_module` calls. -/
def remove_virtual_mic (srv : Server) : Server × List PACall :=
  ({ srv with modules := srv.modules.filter (fun m => !(isVirtualMicModule m)) },
    (srv.modules.filter isVirtualMicModule).map (fun m => PACall.unload_module m.index))

/-- The server-side effect of `set_source_mute_by_name(VIRTUALMIC_NAME,
mute)` once the operation completes (the poll-loop result logic of
`PulseAudioState::set_mute` is modelled separately by
`set_mute_result`). -/
def pulse_set_mute (srv : Server) (mute : Bool) : Server × List PACall :=
  ({ srv with virtualMicMuted := mute }, [PACall.set_source_mute mute])

/-- The asynchronous lifecycle of a server operation
(`operation::State`, extended with the spec's `Error` outcome alongside
libpulse's `Cancelled`). -/
inductive OpState
  | running
  | done
  | cancelled
  | error
  deriving DecidableEq, Repr

/-- `PulseAudioState::set_virtual_mic` (`pulse.rs` lines 111-140): first
`remove_virtual_mic`, then one `load_module("module-remap-source",
mkOptions source_name)` request; the poll loop spins until the load
operation leaves `Running` (`none` models the loop never exiting), after
which — whatever the operation's outcome — the code calls
`set_mute(true)` (result discarded) and records `src_name`.
`loadFinal` is the environment's final state for the load operation; the
server instantiates the module exactly when it is `done`. -/
def set_virtual_mic (ps : PulseAudioState) (srv : Server) (source_name : String)
    (loadFinal : OpState) : Option (PulseAudioState × Server × List PACall) :=
  let r1 := remove_virtual_mic srv
  let loadCall := PACall.load_module "module-remap-source" (mkOptions source_name)
  let srv2 := if loadFinal = OpState.done then
      { r1.1 with
        modules := r1.1.modules
          ++ [⟨r1.1.nextIndex, "module-remap-source", mkOptions source_name⟩],
        nextIndex := r1.1.nextIndex + 1 }
    else r1.1
  if loadFinal = OpState.running then none
  else
    let r2 := pulse_set_mute srv2 true
    some ({ ps with src_name := some source_name }, r2.1, r1.2 ++ loadCall :: r2.2)

/-- `PulseAudioState::get_active_source` (`pulse.rs` lines 142-144). -/
def get_active_source (ps : PulseAudioState) : Option String :=
  ps.src_name

/-- Run a finite sequence of `set_virtual_mic` calls, each with its
source name and the final state of its load operation; `none` when some
call's poll loop never exits. -/
def runSetVirtualMic :
    PulseAudioState × Server → List (String × OpState) →
      Option (PulseAudioState × Server)
  | st, [] => some st
  | (ps, srv), (src, fin) :: rest =>
    match set_virtual_mic ps srv src fin with
    | none => none
    | some (ps2, srv2, _) => runSetVirtualMic (ps2, srv2) rest

/-- The calls issued by `set_virtual_mic("mic1")` when it follows a
completed `set_virtual_mic("mic0")` on a fresh server, paired with the
source recorded afterwards. -/
def micSwap : Option (List PACall × Option String) :=
  match set_virtual_mic initPulse initServer "mic0" OpState.done with
  | none => none
  | some (ps1, srv1, _) =>
    match set_virtual_mic ps1 srv1 "mic1" OpState.done with
    | none => none
    | some (ps2, _, calls2) => some (calls2, ps2.src_name)

theorem isVirtualMicModule_mk (i : Nat) (s : String) :
    isVirtualMicModule ⟨i, "module-remap-source", mkOptions s⟩ = true := by
  simp only [isVirtualMicModule, mkOptions, strContains, Bool.and_eq_true,
    beq_iff_eq, decide_eq_true_eq]
  refine ⟨by trivial, ?_⟩
  have h1 : ("source_name=" ++ VIRTUALMIC_NAME).data <:+: optionsTail.data := by
    decide
  have h2 : optionsTail.data <:+ ("master=" ++ s ++ optionsTail).data := by
    rw [String.data_append]
    exact List.suffix_append _ _
  exact h1.trans h2.isInfix

theorem remove_virtual_mic_clean (srv : Server) :
    ((remove_virtual_mic srv).1.modules.filter isVirtualMicModule) = [] := by
  simp only [remove_virtual_mic, List.filter_filter]
  have : ∀ m : PAModule, (isVirtualMicModule m && !(isVirtualMicModule m)) = false := by
    intro m; cases isVirtualMicModule m <;> rfl
  simp [this]

theorem set_virtual_mic_matching (ps : PulseAudioState) (srv : Server)
    (src : String) (fin : OpState) (h : fin ≠ OpState.running) :
    ∃ ps2 srv2 tr, set_virtual_mic ps srv src fin = some (ps2, srv2, tr)
      ∧ ps2.src_name = some src
      ∧ srv2.virtualMicMuted = true
      ∧ (srv2.modules.filter isVirtualMicModule)
          = (if fin = OpState.done then
              [⟨(remove_virtual_mic srv).1.nextIndex, "module-remap-source", mkOptions src⟩]
            else []) := by
  cases fin with
  | running => exact absurd rfl h
  | done =>
    refine ⟨_, _, _, rfl, rfl, rfl, ?_⟩
    simp [set_virtual_mic, pulse_set_mute, List.filter_append,
      remove_virtual_mic_clean, isVirtualMicModule_mk]
  | cancelled =>
    refine ⟨_, _, _, rfl, rfl, rfl, ?_⟩
    simp [set_virtual_mic, pulse_set_mute, remove_virtual_mic_clean]
  | error =>
    refine ⟨_, _, _, rfl, rfl, rfl, ?_⟩
    simp [set_virtual_mic, pulse_set_mute, remove_virtual_mic_clean]

theorem runSetVirtualMic_last :
    ∀ (calls : List (String × OpState)) (ps : PulseAudioState) (srv : Server)
      (st' : PulseAudioState × Server),
      runSetVirtualMic (ps, srv) calls = some st' →
      (calls = [] ∧ st' = (ps, srv))
      ∨ (∃ p, calls.getLast? = some p ∧
          (∃ i, (st'.2.modules.filter isVirtualMicModule)
              = (if p.2 = OpState.done then
                  [⟨i, "module-remap-source", mkOptions p.1⟩] else []))
          ∧ st'.1.src_name = some p.1) := by
  intro calls
  induction calls with
  | nil =>
    intro ps srv st' hrun
    left
    simp only [runSetVirtualMic, Option.some.injEq] at hrun
    exact ⟨rfl, hrun.symm⟩
  | cons c rest ih =>
    intro ps srv st' hrun
    right
    obtain ⟨src, fin⟩ := c
    simp only [runSetVirtualMic] at hrun
    by_cases hr : fin = OpState.running
    · rw [hr] at hrun
      simp [set_virtual_mic] at hrun
    obtain ⟨ps2, srv2, tr, heq, hsrc, _, hfilter⟩ :=
      set_virtual_mic_matching ps srv src fin hr
    rw [heq] at hrun
    rcases ih ps2 srv2 st' hrun with ⟨hnil, hst⟩ | ⟨p, hlast, hres⟩
    · subst hnil
      refine ⟨(src, fin), rfl, ⟨(remove_virtual_mic srv).1.nextIndex, ?_⟩, ?_⟩
      · simp only [runSetVirtualMic, Option.some.injEq] at hrun
        rw [← hrun]
        exact hfilter
      · simp only [runSetVirtualMic, Option.some.injEq] at hrun
        rw [← hrun]
        exact hsrc
    · refine ⟨p, ?_, hres⟩
      cases rest with
      | nil => simp at hlast
      | cons x xs => simpa [List.getLast?] using hlast

/-- C3: at-most-one-device invariant.  First conjunct: after any finite
sequence of completed `set_virtual_mic` calls from a fresh server, at
most one virtual-microphone module is loaded, and every loaded one is the
`module-remap-source` instance whose argument comes from the most recent
call's source name.  Second conjunct: `set_virtual_mic("mic0")` then
`set_virtual_mic("mic1")` issues, between the two calls, exactly one
`unload_module` (of the prior module, index 0) then one `load_module`,
and leaves the recorded source `"mic1"`. -/
theorem at_most_one_virtual_mic :
    (∀ (calls : List (String × OpState)) (st' : PulseAudioState × Server),
      runSetVirtualMic (initPulse, initServer) calls = some st' →
      (st'.2.modules.filter isVirtualMicModule).length ≤ 1
      ∧ ∀ m ∈ st'.2.modules, isVirtualMicModule m = true →
          ∃ p, calls.getLast? = some p ∧ m.argument = mkOptions p.1)
    ∧ micSwap = some ([PACall.unload_module 0,
        PACall.load_module "module-remap-source" (mkOptions "mic1"),
        PACall.set_source_mute true], some "mic1") := by
  constructor
  · intro calls st' hrun
    rcases runSetVirtualMic_last calls initPulse initServer st' hrun with
      ⟨_, hst⟩ | ⟨p, hlast, ⟨i, hfilter⟩, _⟩
    · subst hst
      exact ⟨by simp [initServer], by simp [initServer]⟩
    · constructor
      · rw [hfilter]
        by_cases hd : p.2 = OpState.done <;> simp [hd]
      · intro m hm hvm
        have hmem : m ∈ st'.2.modules.filter isVirtualMicModule :=
          List.mem_filter.mpr ⟨hm, hvm⟩
        rw [hfilter] at hmem
        by_cases hd : p.2 = OpState.done
        · rw [if_pos hd] at hmem
          simp only [List.mem_singleton] at hmem
          exact ⟨p, hlast, by rw [hmem]⟩
        · rw [if_neg hd] at hmem
          exact absurd hmem (List.not_mem_nil m)
  · rfl

/-- Witness for C3's universally quantified invariant at a concrete
one-call sequence. -/
theorem at_most_one_virtual_mic_witness :
    ∃ st', runSetVirtualMic (initPulse, initServer) [("mic0", OpState.done)] = some st'
      ∧ (st'.2.modules.filter isVirtualMicModule).length ≤ 1
      ∧ ∀ m ∈ st'.2.modules, isVirtualMicModule m = true →
          ∃ p, [("mic0", OpState.done)].getLast? = some p
            ∧ m.argument = mkOptions p.1 := by
  refine ⟨(⟨some "mic0"⟩,
    ⟨[⟨0, "module-remap-source", mkOptions "mic0"⟩], 1, true⟩), rfl, ?_⟩
  exact at_most_one_virtual_mic.1 [("mic0", OpState.done)] _ rfl

/-- C6: a completed `set_virtual_mic(source_name)` — first conjunct: the
call does not return while the load operation is still `Running`; second
conjunct: once the operation leaves `Running`, whatever its outcome
(including a rejected module, `error` or `cancelled`), the call returns
without raising any error, sets mute = `true` on the virtual device, and
records `source_name` so that `get_active_source` returns it. -/
theorem set_virtual_mic_postcondition :
    (∀ (ps : PulseAudioState) (srv : Server) (src : String),
      set_virtual_mic ps srv src OpState.running = none)
    ∧ (∀ (ps : PulseAudioState) (srv : Server) (src : String) (fin : OpState),
        fin ≠ OpState.running →
        ∃ ps2 srv2 tr, set_virtual_mic ps srv src fin = some (ps2, srv2, tr)
          ∧ get_active_source ps2 = some src
          ∧ srv2.virtualMicMuted = true) := by
  constructor
  · intro ps srv src
    simp [set_virtual_mic]
  · intro ps srv src fin h
    obtain ⟨ps2, srv2, tr, heq, hsrc, hmute, _⟩ :=
      set_virtual_mic_matching ps srv src fin h
    exact ⟨ps2, srv2, tr, heq, hsrc, hmute⟩

/-- Witness for C6 with a rejected load operation. -/
theorem set_virtual_mic_postcondition_witness :
    ∃ ps2 srv2 tr,
      set_virtual_mic initPulse initServer "mic0" OpState.error = some (ps2, srv2, tr)
      ∧ get_active_source ps2 = some "mic0"
      ∧ srv2.virtualMicMuted = true :=
  set_virtual_mic_postcondition.2 initPulse initServer "mic0" OpState.error
    (by decide)

/-- `PulseAudioState::get_input_devices` (`pulse.rs` lines 167-199):
`reported` is the sequence of source infos the server's
`get_source_info_list` enumeration reports (each carrying an optional
name).  The callback forwards, in order, every present name other than
`VIRTUALMIC_NAME` into a channel that is drained after the operation
completes. -/
def get_input_devices (reported : List (Option String)) : List String :=
  reported.filterMap (fun n => match n with
    | some name => if name == VIRTUALMIC_NAME then none else some name
    | none => none)

/-- C9: for every list of source names reported by the server,
`get_input_devices` never contains the virtual device's own name, and
every other reported name is included. -/
theorem device_list_filtering (reported : List (Option String)) :
    VIRTUALMIC_NAME ∉ get_input_devices reported
    ∧ ∀ n : String, some n ∈ reported → n ≠ VIRTUALMIC_NAME →
        n ∈ get_input_devices reported := by
  constructor
  · intro hmem
    rw [get_input_devices, List.mem_filterMap] at hmem
    obtain ⟨a, _, ha⟩ := hmem
    match a with
    | none => simp at ha
    | some name =>
      by_cases h : name = VIRTUALMIC_NAME
      · simp [h] at ha
      · simp only [beq_iff_eq, if_neg h, Option.some.injEq] at ha
        exact h ha
  · intro n hn hne
    rw [get_input_devices, List.mem_filterMap]
    exact ⟨some n, hn, by simp [hne]⟩

/-- Witness for C9 on a concrete reported list containing the virtual
device's own name. -/
theorem device_list_filtering_witness :
    VIRTUALMIC_NAME ∉ get_input_devices [some "a", some VIRTUALMIC_NAME, none]
    ∧ "a" ∈ get_input_devices [some "a", some VIRTUALMIC_NAME, none] :=
  ⟨(device_list_filtering [some "a", some VIRTUALMIC_NAME, none]).1,
    (device_list_filtering [some "a", some VIRTUALMIC_NAME, none]).2 "a"
      (by decide) (by decide)⟩

/-- The result of `Mainloop::iterate` as matched by the poll loops
(`IterateResult`): `Success` carries on, `Quit` and `Err` abort. -/
inductive IterateOutcome
  | success
  | quit
  | err
  deriving DecidableEq, Repr

/-- The return-value logic of `PulseAudioState::set_mute` (`pulse.rs`
lines 146-165).  Each list element is one loop iteration: the mainloop
tick's outcome, then the operation state observed after it.  `Quit`/`Err`
ticks return `Err(MainloopTick)` before the state is consulted; a
successful tick returns `Ok(())` as soon as the state is not `Running`.
`none` models a loop that has not yet returned within the observed
iterations. -/
def set_mute_result :
    List (IterateOutcome × OpState) → Option (Except PulseError Unit)
  | [] => none
  | (t, st) :: rest =>
    match t with
    | IterateOutcome.quit => some (Except.error PulseError.MainloopTick)
    | IterateOutcome.err => some (Except.error PulseError.MainloopTick)
    | IterateOutcome.success =>
      if st = OpState.running then set_mute_result rest
      else some (Except.ok ())

/-- Collapse an observation to whether the operation is still running:
the only thing `set_mute` may inspect about the operation. -/
def collapseOutcome (p : IterateOutcome × OpState) : IterateOutcome × OpState :=
  (p.1, if p.2 = OpState.running then OpState.running else OpState.done)

/-- C10: `set_mute` returns `Ok` as soon as the operation leaves
`Running` — whatever its final state, `done`, `error` or `cancelled`
(first conjunct); it returns `Err(MainloopTick)` exactly when the loop
itself reports `Quit` or `Err` while polling (second conjunct); and the
result never depends on the operation's outcome beyond leaving `Running`
(third conjunct). -/
theorem set_mute_result_spec :
    (∀ (pre rest : List (IterateOutcome × OpState)) (st : OpState),
      (∀ p ∈ pre, p.1 = IterateOutcome.success ∧ p.2 = OpState.running) →
      st ≠ OpState.running →
      set_mute_result (pre ++ (IterateOutcome.success, st) :: rest)
        = some (Except.ok ()))
    ∧ (∀ (pre rest : List (IterateOutcome × OpState)) (t : IterateOutcome)
        (st : OpState),
      (∀ p ∈ pre, p.1 = IterateOutcome.success ∧ p.2 = OpState.running) →
      t ≠ IterateOutcome.success →
      set_mute_result (pre ++ (t, st) :: rest)
        = some (Except.error PulseError.MainloopTick))
    ∧ (∀ trace, set_mute_result trace
        = set_mute_result (trace.map collapseOutcome)) := by
  refine ⟨?_, ?_, ?_⟩
  · intro pre rest st hpre hst
    induction pre with
    | nil => simp [set_mute_result, hst]
    | cons p pre ih =>
      obtain ⟨hp1, hp2⟩ := hpre p (List.mem_cons_self p pre)
      obtain ⟨t0, s0⟩ := p
      simp only at hp1 hp2
      subst hp1; subst hp2
      simp only [List.cons_append, set_mute_result, if_pos rfl]
      exact ih (fun q hq => hpre q (List.mem_cons_of_mem _ hq))
  · intro pre rest t st hpre ht
    induction pre with
    | nil =>
      cases t with
      | success => exact absurd rfl ht
      | quit => simp [set_mute_result]
      | err => simp [set_mute_result]
    | cons p pre ih =>
      obtain ⟨hp1, hp2⟩ := hpre p (List.mem_cons_self p pre)
      obtain ⟨t0, s0⟩ := p
      simp only at hp1 hp2
      subst hp1; subst hp2
      simp only [List.cons_append, set_mute_result, if_pos rfl]
      exact ih (fun q hq => hpre q (List.mem_cons_of_mem _ hq))
  · intro trace
    induction trace with
    | nil => rfl
    | cons p rest ih =>
      obtain ⟨t, s⟩ := p
      cases t with
      | quit => rfl
      | err => rfl
      | success =>
        by_cases hs : s = OpState.running
        · simp [set_mute_result, collapseOutcome, hs, ih]
        · simp [set_mute_result, collapseOutcome, hs]

/-- Witness for C10: one running tick, then the operation ends
`cancelled` — the call still returns `Ok`. -/
theorem set_mute_result_spec_witness :
    set_mute_result [(IterateOutcome.success, OpState.running),
      (IterateOutcome.success, OpState.cancelled)] = some (Except.ok ()) :=
  set_mute_result_spec.1 [(IterateOutcome.success, OpState.running)] []
    OpState.cancelled (by decide) (by decide)

/-! ## Hotkey routing and rebinding (`hotkey.rs`, `app.rs`) -/

/-- A registered accelerator as the Direct backend sees it: what matters
to routing is the backend-assigned numeric id (`HotKey::id()` in the
`global_hotkey` crate, a hash of the accelerator). -/
structure HotKey where
  id : Nat
  deriving DecidableEq, Repr

/-- `HotKeyState` of a `GlobalHotKeyEvent`. -/
inductive HotKeyState
  | pressed
  | released
  deriving DecidableEq, Repr

/-- A raw backend event: the id of the accelerator and its edge. -/
structure GlobalHotKeyEvent where
  id : Nat
  state : HotKeyState
  deriving DecidableEq, Repr

/-- The engine messages `handle_hotkey_press` can emit. -/
inductive RoutedMsg
  | SetMuted (muted : Bool)
  | ToggleActive
  deriving DecidableEq, Repr

/-- `handle_hotkey_press` (`hotkey.rs` lines 168-183): an event with the
trigger id becomes `Msg::SetMuted(state == Released)`; one with the
toggle-active id becomes `Msg::ToggleActive` on the pressed edge only;
anything else is dropped (`return` before any send). -/
def handle_hotkey_press (event : GlobalHotKeyEvent)
    (hotkey_ids : HotKeyConfig Nat) : Option RoutedMsg :=
  if event.id == hotkey_ids.trigger then
    some (RoutedMsg.SetMuted (event.state == HotKeyState.released))
  else if event.id == hotkey_ids.toggle_active
      && event.state == HotKeyState.pressed then
    some RoutedMsg.ToggleActive
  else none

/-- Event dispatch in `hotkeys_non_wl` (`hotkey.rs` lines 156-164): on
each received event the current registry (the config's hotkeys) is read
under the lock and its ids are consulted — resolution happens at
dispatch time. -/
def dispatchEvent (hks : HotKeyConfig HotKey) (event : GlobalHotKeyEvent) :
    Option RoutedMsg :=
  handle_hotkey_press event ⟨hks.trigger.id, hks.toggle_active.id⟩

/-- The registry update a completed rebind performs: the UI's
`finish_hotkey_recording` builds the full config with the recorded role's
hotkey replaced, and the change handler in `hotkeys_non_wl` (lines
140-150) unregisters the old pair and stores it. -/
def rebindRole (hks : HotKeyConfig HotKey) (role : HotKeyAction)
    (newHK : HotKey) : HotKeyConfig HotKey :=
  match role with
  | HotKeyAction.Trigger => { hks with trigger := newHK }
  | HotKeyAction.ToggleActive => { hks with toggle_active := newHK }

/-- The id currently bound to a role. -/
def roleId (hks : HotKeyConfig HotKey) (role : HotKeyAction) : Nat :=
  match role with
  | HotKeyAction.Trigger => hks.trigger.id
  | HotKeyAction.ToggleActive => hks.toggle_active.id

/-- The other of the two roles. -/
def otherRole : HotKeyAction → HotKeyAction
  | HotKeyAction.Trigger => HotKeyAction.ToggleActive
  | HotKeyAction.ToggleActive => HotKeyAction.Trigger

/-- The message a pressed event on a role's accelerator produces. -/
def roleMsg : HotKeyAction → RoutedMsg
  | HotKeyAction.Trigger => RoutedMsg.SetMuted false
  | HotKeyAction.ToggleActive => RoutedMsg.ToggleActive

/-- C7: rebind atomicity under the Direct backend.  After
`rebindRole hks role newHK` completes, an event carrying the role's old
backend id is dropped — routed to no role, no engine message — for
either edge (provided the old id is genuinely stale: distinct from the
new id and from the other role's id), while a pressed event carrying the
new id routes to that role's message (provided the new id does not
collide with the other role's id). -/
theorem rebind_atomicity (hks : HotKeyConfig HotKey) (role : HotKeyAction)
    (newHK : HotKey) (st : HotKeyState) :
    (roleId hks role ≠ newHK.id →
      roleId hks role ≠ roleId (rebindRole hks role newHK) (otherRole role) →
      dispatchEvent (rebindRole hks role newHK) ⟨roleId hks role, st⟩ = none)
    ∧ (newHK.id ≠ roleId (rebindRole hks role newHK) (otherRole role) →
      dispatchEvent (rebindRole hks role newHK) ⟨newHK.id, HotKeyState.pressed⟩
        = some (roleMsg role)) := by
  cases role with
  | Trigger =>
    constructor
    · intro h1 h2
      simp only [rebindRole, roleId, otherRole] at h1 h2 ⊢
      simp [dispatchEvent, handle_hotkey_press, h1, h2]
    · intro h1
      simp only [rebindRole, roleId, otherRole] at h1 ⊢
      simp [dispatchEvent, handle_hotkey_press, roleMsg]
  | ToggleActive =>
    constructor
    · intro h1 h2
      simp only [rebindRole, roleId, otherRole] at h1 h2 ⊢
      simp [dispatchEvent, handle_hotkey_press, h1, h2]
    · intro h1
      simp only [rebindRole, roleId, otherRole] at h1 ⊢
      simp [dispatchEvent, handle_hotkey_press, roleMsg, h1]

/-- Witness for C7: rebinding Trigger from id 1 to id 3 (other role id
2): the old id 1 is dropped, the new id 3 routes to Trigger. -/
theorem rebind_atomicity_witness :
    dispatchEvent (rebindRole ⟨⟨1⟩, ⟨2⟩⟩ HotKeyAction.Trigger ⟨3⟩)
        ⟨1, HotKeyState.pressed⟩ = none
    ∧ dispatchEvent (rebindRole ⟨⟨1⟩, ⟨2⟩⟩ HotKeyAction.Trigger ⟨3⟩)
        ⟨3, HotKeyState.pressed⟩ = some (roleMsg HotKeyAction.Trigger) :=
  ⟨(rebind_atomicity ⟨⟨1⟩, ⟨2⟩⟩ HotKeyAction.Trigger ⟨3⟩
      HotKeyState.pressed).1 (by decide) (by decide),
    (rebind_atomicity ⟨⟨1⟩, ⟨2⟩⟩ HotKeyAction.Trigger ⟨3⟩
      HotKeyState.pressed).2 (by decide)⟩

/-- `App::finish_hotkey_recording` (`app.rs` lines 231-258).  `parse` is
`HotKey::from_str` (a library parser, passed as a parameter;
`none` = parse error) and `hkDefault` is `HotKeyConfig::default()`.
Returns the new UI state and the binding update sent on
`change_hotkey_tx` (`none` when nothing is sent).  The `take()` on
`recording_hotkey` clears the recording mode before the parse is
attempted. -/
def finish_hotkey_recording (parse : String → Option HotKey)
    (hkDefault : HotKeyConfig HotKey) (s : App) (hk_string : String) :
    App × Option (HotKeyConfig HotKey) :=
  match s.recording_hotkey with
  | none => (s, none)
  | some recording =>
    let s1 := { s with recording_hotkey := none }
    match parse hk_string with
    | none => (s1, none)
    | some new_hk =>
      let hotkeys : HotKeyConfig HotKey :=
        { trigger := (parse s.hk_descriptions.trigger).getD hkDefault.trigger,
          toggle_active :=
            (parse s.hk_descriptions.toggle_active).getD hkDefault.toggle_active }
      let hotkeys2 := match recording with
        | HotKeyAction.Trigger => { hotkeys with trigger := new_hk }
        | HotKeyAction.ToggleActive => { hotkeys with toggle_active := new_hk }
      if s.change_hotkey_tx then (s1, some hotkeys2) else (s1, none)

/-- C8: for every accelerator string that fails to parse, the rebind
request is silently rejected: no binding update is sent on
`change_hotkey_tx` (so neither the backend registration nor the stored
config can change — those happen only in the `hotkeys_non_wl` handler on
receipt of an update), and the state is unchanged except that recording
mode ends; in particular the displayed bindings are exactly as before. -/
theorem rebind_rejection (parse : String → Option HotKey)
    (hkDefault : HotKeyConfig HotKey) (s : App) (hk_string : String)
    (hfail : parse hk_string = none) :
    (finish_hotkey_recording parse hkDefault s hk_string).2 = none
    ∧ (finish_hotkey_recording parse hkDefault s hk_string).1
        = { s with recording_hotkey := none }
    ∧ (finish_hotkey_recording parse hkDefault s hk_string).1.hk_descriptions
        = s.hk_descriptions := by
  obtain ⟨l, a, m, d, r, c⟩ := s
  match hrec : r with
  | none =>
    refine ⟨?_, ?_, ?_⟩ <;>
      simp [finish_hotkey_recording]
  | some recording =>
    refine ⟨?_, ?_, ?_⟩ <;>
      simp [finish_hotkey_recording, hfail]

/-- Witness for C8 with a parser that rejects everything, in recording
mode. -/
theorem rebind_rejection_witness :
    (finish_hotkey_recording (fun _ => none) ⟨⟨0⟩, ⟨1⟩⟩
        { initApp with recording_hotkey := some HotKeyAction.Trigger } "NoSuchKey").2
      = none
    ∧ (finish_hotkey_recording (fun _ => none) ⟨⟨0⟩, ⟨1⟩⟩
        { initApp with recording_hotkey := some HotKeyAction.Trigger } "NoSuchKey").1
      = initApp :=
  ⟨(rebind_rejection (fun _ => none) ⟨⟨0⟩, ⟨1⟩⟩
      { initApp with recording_hotkey := some HotKeyAction.Trigger } "NoSuchKey" rfl).1,
    (rebind_rejection (fun _ => none) ⟨⟨0⟩, ⟨1⟩⟩
      { initApp with recording_hotkey := some HotKeyAction.Trigger } "NoSuchKey" rfl).2.1⟩

end GlobalPTT
